import Mathlib

/-!
Verification development for the `react-preview-iframe` viewer
(`src/app/page.tsx`).

The file embeds, as executable Lean definitions, the parts of the
program the testable properties talk about:

* the zod schemas `file`, `project`, `flat`, `span` and the union
  `schema` (lines 12-26 of the source) together with zod v3's
  sync-parse semantics (type checks abort a parse; `.min` checks mark
  it "dirty"; a union returns the first valid arm, else the first
  dirty arm's issues, else a single `invalid_union` issue);
* `getErrorSummary` (lines 71-87);
* the message listener / session state (lines 109-139), including the
  bounded rejection log (line 128);
* the regex pipeline `stripTS` (lines 53-69), each `.replace` call
  modelled as a left-to-right scan that applies the JavaScript
  leftmost-match/greedy semantics of that particular pattern;
* the preview document builder `buildPreview` (lines 146-347) and the
  in-document root-component discovery `findRootComponent`
  (lines 246-271).

Machine integers do not occur; counters are `Nat`. zod issue `path`s
are not modelled: no claim and no code in `page.tsx` reads them
(`getErrorSummary` looks only at `code` and the payload fields).
-/

/-- JSON-like values received on the message channel (structured-clone
payloads).  Numbers are modelled as integers; no claim involves
numeric payloads. -/
inductive Json where
  | null
  | bool (b : Bool)
  | num (n : Int)
  | str (s : String)
  | arr (elems : List Json)
  | obj (fields : List (String × Json))

/-- zod's `getParsedType` name for a present value. -/
def jsonTypeName : Json → String
  | .null => "null"
  | .bool _ => "boolean"
  | .num _ => "number"
  | .str _ => "string"
  | .arr _ => "array"
  | .obj _ => "object"

/-- zod's `getParsedType` name, `"undefined"` for a missing field. -/
def typeNameOpt : Option Json → String
  | none => "undefined"
  | some j => jsonTypeName j

mutual
/-- JavaScript `String(v)` / template-literal rendering of a value,
used for the `received` text of an `invalid_literal` issue. -/
def jsStringOf : Json → String
  | .null => "null"
  | .bool b => cond b "true" "false"
  | .num n => toString n
  | .str s => s
  | .arr elems => jsStringOfList elems
  | .obj _ => "[object Object]"

def jsStringOfList : List Json → String
  | [] => ""
  | [j] => jsStringOf j
  | j :: rest => jsStringOf j ++ "," ++ jsStringOfList rest
end

/-- Rendering for an optional value (a missing field prints as
`undefined`). -/
def jsStringOpt : Option Json → String
  | none => "undefined"
  | some j => jsStringOf j

/-- Field lookup in an object's field list (JavaScript property
access; structured-clone objects have unique keys). -/
def lookupField : List (String × Json) → String → Option Json
  | [], _ => none
  | (k, v) :: rest, key => if k = key then some v else lookupField rest key

/-- `j[key]`: `none` when `j` is not an object or lacks the key. -/
def getField (j : Json) (key : String) : Option Json :=
  match j with
  | .obj fields => lookupField fields key
  | _ => none

/-- The structured validation issues zod produces for these schemas.
`code` strings match zod's: `invalid_type`, `invalid_literal`,
`too_small`, `invalid_union`.  `custom` stands for the remaining zod
codes, which the schemas of this program never produce; it keeps the
`default` arm of `getErrorSummary` meaningful. -/
inductive ZIssue where
  | invalidType (expected received : String)
  | invalidLiteral (expected received : String)
  | tooSmall (minimum : Nat) (kind : String) (message : String)
  | invalidUnion (unionErrors : List (List ZIssue))
  | custom (message : String)

/-- The machine-checkable issue kind (zod's `issue.code`). -/
def ZIssue.code : ZIssue → String
  | .invalidType _ _ => "invalid_type"
  | .invalidLiteral _ _ => "invalid_literal"
  | .tooSmall _ _ _ => "too_small"
  | .invalidUnion _ => "invalid_union"
  | .custom _ => "custom"

/-- Outcome of one zod sync parse.  `valid` carries no issues;
`dirty` (a `.min` style check failed but the structure matched)
and `invalid` (a type/literal check aborted) carry the ordered issue
list accumulated for this subtree. -/
inductive ZOut (α : Type) where
  | valid (a : α)
  | dirty (a : α) (issues : List ZIssue)
  | invalid (issues : List ZIssue)

/-- The issues of a parse outcome. -/
def ZOut.issues {α : Type} : ZOut α → List ZIssue
  | .valid _ => []
  | .dirty _ is => is
  | .invalid is => is

/-- Map over the parsed value. -/
def ZOut.map {α β : Type} (f : α → β) : ZOut α → ZOut β
  | .valid a => .valid (f a)
  | .dirty a is => .dirty (f a) is
  | .invalid is => .invalid is

/-- zod's `mergeObjectSync` for two adjacent shape fields: all issues
are collected in shape order; an aborted field aborts the object, a
dirty field dirties it. -/
def zPair {α β : Type} (a : ZOut α) (b : ZOut β) : ZOut (α × β) :=
  match a, b with
  | .valid x, .valid y => .valid (x, y)
  | .valid x, .dirty y is => .dirty (x, y) is
  | .dirty x is, .valid y => .dirty (x, y) is
  | .dirty x i1, .dirty y i2 => .dirty (x, y) (i1 ++ i2)
  | a, b => .invalid (a.issues ++ b.issues)

/-- `ProjectFile`: `z.object({ path, content, type })` output type. -/
structure ProjectFile where
  path : String
  content : String
  type : String

/-- `Project`: the normalized payload. -/
structure Project where
  files : List ProjectFile
  description : Option String
  instructions : Option String

/-- `z.string()` applied to a field value (`none` = field absent). -/
def parseString (v : Option Json) : ZOut String :=
  match v with
  | some (.str s) => .valid s
  | v => .invalid [.invalidType "string" (typeNameOpt v)]

/-- `z.string().min(1, msg)`: the min check runs after the type check
and marks the parse dirty (zod `status.dirty()`), not aborted. -/
def parseStringMin1 (msg : String) (v : Option Json) : ZOut String :=
  match parseString v with
  | .valid s => if s.length < 1 then .dirty s [.tooSmall 1 "string" msg] else .valid s
  | r => r

/-- `z.string().optional()`. -/
def parseOptString (v : Option Json) : ZOut (Option String) :=
  match v with
  | none => .valid none
  | some j => (parseString (some j)).map some

/-- Schema `file` (source lines 12-16): field order path, content,
type. -/
def file (j : Json) : ZOut ProjectFile :=
  match j with
  | .obj _ =>
    (zPair (parseStringMin1 "File path cannot be empty" (getField j "path"))
      (zPair (parseString (getField j "content"))
        (parseStringMin1 "File type cannot be empty" (getField j "type")))).map
      (fun x => ⟨x.1, x.2.1, x.2.2⟩)
  | j => .invalid [.invalidType "object" (jsonTypeName j)]

/-- The element values of a list of parse outcomes, `none` when any
element aborted. -/
def seqVals {α : Type} : List (ZOut α) → Option (List α)
  | [] => some []
  | .valid a :: rest => (seqVals rest).map (a :: ·)
  | .dirty a _ :: rest => (seqVals rest).map (a :: ·)
  | .invalid _ :: _ => none

/-- `z.array(file).min(1, msg)` (source line 19).  zod's `ZodArray`
checks the length bound before parsing elements, so the `too_small`
issue precedes element issues; every element is parsed and all issues
are collected in element order. -/
def parseFiles (v : Option Json) : ZOut (List ProjectFile) :=
  match v with
  | some (.arr elems) =>
    let minIssues : List ZIssue :=
      if elems.length < 1 then [.tooSmall 1 "array" "At least one file is required"] else []
    let results := elems.map file
    let allIssues := minIssues ++ (results.map ZOut.issues).flatten
    match seqVals results with
    | some vs =>
      match allIssues with
      | [] => .valid vs
      | is => .dirty vs is
    | none => .invalid allIssues
  | v => .invalid [.invalidType "array" (typeNameOpt v)]

/-- Schema `project` (source lines 18-22): field order files,
description, instructions. -/
def project (v : Option Json) : ZOut Project :=
  match v with
  | none => .invalid [.invalidType "object" "undefined"]
  | some j =>
    match j with
    | .obj _ =>
      (zPair (parseFiles (getField j "files"))
        (zPair (parseOptString (getField j "description"))
          (parseOptString (getField j "instructions")))).map
        (fun x => ⟨x.1, x.2.1, x.2.2⟩)
    | j => .invalid [.invalidType "object" (jsonTypeName j)]

/-- `z.literal("data")`: a strict `===` comparison; any other value
(including a missing field) yields `invalid_literal`. -/
def parseLiteralData (v : Option Json) : ZOut Unit :=
  match v with
  | some (.str s) =>
    if s = "data" then .valid () else .invalid [.invalidLiteral "data" s]
  | v => .invalid [.invalidLiteral "data" (jsStringOpt v)]

/-- Schema `flat` (source line 24), projected to the `Project` it
carries (the envelope's `type` field is the fixed literal). -/
def flat (j : Json) : ZOut Project :=
  match j with
  | .obj _ =>
    (zPair (parseLiteralData (getField j "type")) (project (getField j "data"))).map Prod.snd
  | j => .invalid [.invalidType "object" (jsonTypeName j)]

/-- The `z.object({ data: project })` nested inside `span`'s
`output`. -/
def spanOutput (v : Option Json) : ZOut Project :=
  match v with
  | none => .invalid [.invalidType "object" "undefined"]
  | some j =>
    match j with
    | .obj _ => project (getField j "data")
    | j => .invalid [.invalidType "object" (jsonTypeName j)]

/-- The `z.object({ output: ... })` in `span`'s `data` position. -/
def spanData (v : Option Json) : ZOut Project :=
  match v with
  | none => .invalid [.invalidType "object" "undefined"]
  | some j =>
    match j with
    | .obj _ => spanOutput (getField j "output")
    | j => .invalid [.invalidType "object" (jsonTypeName j)]

/-- Schema `span` (source line 25), projected to its `Project`. -/
def span (j : Json) : ZOut Project :=
  match j with
  | .obj _ =>
    (zPair (parseLiteralData (getField j "type")) (spanData (getField j "data"))).map Prod.snd
  | j => .invalid [.invalidType "object" (jsonTypeName j)]

/-- Which arm of the union matched, with the `Project` it carries. -/
inductive Envelope where
  | flat (p : Project)
  | wrapped (p : Project)

/-- Schema `schema = z.union([flat, span])` (source line 26) with zod
v3's `handleResults`: the first valid option wins; otherwise the first
dirty option is returned and its issues become the error's issues;
otherwise a single `invalid_union` issue carrying both arms' errors. -/
def schema (j : Json) : ZOut Envelope :=
  match flat j, span j with
  | .valid p, _ => .valid (.flat p)
  | _, .valid p => .valid (.wrapped p)
  | .dirty p is, _ => .dirty (.flat p) is
  | _, .dirty p is => .dirty (.wrapped p) is
  | .invalid i1, .invalid i2 => .invalid [.invalidUnion [i1, i2]]

/-- `schema.safeParse` (source line 117): success only for a fully
valid parse; a dirty or aborted parse reports its issue list. -/
def safeParse (j : Json) : Except (List ZIssue) Envelope :=
  match schema j with
  | .valid e => .ok e
  | .dirty _ is => .error is
  | .invalid is => .error is

/-- The listener's normalization (source line 135):
`"files" in parsed.data.data ? parsed.data.data
: parsed.data.data.output.data`.  zod strips unknown keys, so the flat
arm's `data` always has `files` and the wrapped arm's never does; the
test is exactly a match on the arm. -/
def extractProject : Envelope → Project
  | .flat p => p
  | .wrapped p => p

/-- `getErrorSummary` (source lines 71-87).  First-failure-wins: only
`issues[0]` is inspected; an empty issue list yields the fixed string.
The `default` arm models `mainIssue.message || "Validation failed"`
(an empty message is falsy in JavaScript). -/
def getErrorSummary (issues : List ZIssue) : String :=
  match issues with
  | [] => "Unknown validation error"
  | mainIssue :: _ =>
    match mainIssue with
    | .invalidType e r => "Expected " ++ e ++ ", got " ++ r
    | .invalidLiteral e r => "Expected \"" ++ e ++ "\", got \"" ++ r ++ "\""
    | .tooSmall m _ _ => "Array too small: minimum " ++ toString m ++ " items required"
    | .invalidUnion _ => "Message format doesn\x27t match expected structure"
    | .custom msg => if msg = "" then "Validation failed" else msg

/-- A rejected message record (source lines 33-40). -/
structure Rejected where
  id : String
  time : String
  origin : String
  msg : Json
  issues : List ZIssue
  summary : String

/-- `ConnectionStatus` (source lines 42-48). -/
structure ConnectionStatus where
  listening : Bool
  messagesReceived : Nat
  lastMessageTime : Option String
  validMessages : Nat
  rejectedMessages : Nat

/-- The session state owned by the listener: current project,
rejection log, transient banner flag, preview error, counters. -/
structure SessionState where
  proj : Option Project
  rej : List Rejected
  banner : Bool
  previewError : Option String
  status : ConnectionStatus

/-- The rejection-log push (source line 128):
`[rejectedMsg, ...p.slice(0, 9)]`. -/
def pushRejected (r : Rejected) (log : List Rejected) : List Rejected :=
  r :: log.take 9

/-- The message listener (source lines 110-139) as one synchronous
state transition.  `msgId`/`msgTime` stand for the
`Date.now()`/`toISOString()` stamps taken during the handler; the
banner's 10-second dismiss timer is outside the synchronous step. -/
def listener (msgId msgTime origin : String) (data : Json) (st : SessionState) : SessionState :=
  let st1 := { st with
    status := { st.status with
      messagesReceived := st.status.messagesReceived + 1
      lastMessageTime := some msgTime } }
  match safeParse data with
  | .error issues =>
    let rejectedMsg : Rejected :=
      { id := msgId, time := msgTime, origin := origin, msg := data
        issues := issues, summary := getErrorSummary issues }
    { st1 with
      rej := pushRejected rejectedMsg st1.rej
      status := { st1.status with rejectedMessages := st1.status.rejectedMessages + 1 }
      banner := true }
  | .ok parsed =>
    { st1 with
      proj := some (extractProject parsed)
      status := { st1.status with validMessages := st1.status.validMessages + 1 }
      previewError := none }

/-! ### The `stripTS` rewrite pipeline (source lines 53-69)

`stripTS` is a chain of twelve `String.prototype.replace(regex, ...)`
calls with the `g` flag.  Each call is modelled by `applyRule step`:
a single left-to-right scan that, at each position, either applies
the rule's JavaScript leftmost/greedy match starting there (emitting
the replacement and resuming after the matched text, which is how a
global replace advances) or emits the character unchanged.  Each
`step` receives the previous original character (for the one pattern
with a `\b` word-boundary) and returns
`(matched text, replacement, remaining input)`. -/

/-- JavaScript `\s` restricted to the whitespace forms that occur in
source text. -/
def isJsSpace (c : Char) : Bool :=
  c == ' ' || c == '\t' || c == '\n' || c == '\r'

/-- JavaScript `\w` = `[A-Za-z0-9_]`. -/
def isJsWord (c : Char) : Bool :=
  c.isAlphanum || c == '_'

/-- `[A-Za-z_$]`, the first character of the identifier in the
generic-call pattern. -/
def isIdentStart (c : Char) : Bool :=
  c.isAlpha || c == '_' || c == '$'

/-- `[\w$]`, the remaining identifier characters. -/
def isIdentChar (c : Char) : Bool :=
  isJsWord c || c == '$'

/-- Strip a literal off the front of the input, or fail. -/
def dropLit : List Char → List Char → Option (List Char)
  | [], l => some l
  | p :: ps, c :: cs => if c = p then dropLit ps cs else none
  | _ :: _, [] => none

/-- `(l.takeWhile p, l.dropWhile p)`: the greedy match of `p*` and the
remainder. -/
def splitWhile (p : Char → Bool) (l : List Char) : List Char × List Char :=
  (l.takeWhile p, l.dropWhile p)

/-- One rule's behaviour at a single position: `none` when no match
starts here, otherwise the matched original text, its replacement and
the rest of the input. -/
def RuleStep : Type :=
  Option Char → List Char → Option (List Char × List Char × List Char)

/-- Run one global replace over the input.  `fuel` starts as the input
length; every match consumes at least one character, so fuel never
runs out on the rules below. -/
def runRule (step : RuleStep) : Nat → Option Char → List Char → List Char
  | 0, _, l => l
  | _ + 1, _, [] => []
  | fuel + 1, prev, c :: cs =>
    match step prev (c :: cs) with
    | some (matched, repl, rest) => repl ++ runRule step fuel matched.getLast? rest
    | none => c :: runRule step fuel (some c) cs

/-- One `.replace(regex, ...)` pass over a string. -/
def applyRule (step : RuleStep) (s : String) : String :=
  ⟨runRule step s.data.length none s.data⟩

/-- `/import[^;]+;?/g → ""` (source line 56). -/
def mImport : RuleStep := fun _ l =>
  match dropLit ("import".data) l with
  | none => none
  | some r1 =>
    let (body, r2) := splitWhile (fun c => !(c == ';')) r1
    if body.isEmpty then none
    else
      match r2 with
      | ';' :: r3 => some (("import".data) ++ body ++ [';'], [], r3)
      | _ => some (("import".data) ++ body, [], r2)

/-- `/export default kw\s+(\w+)/g → "kw $1"` for
`kw ∈ {function, class, const}` (source lines 57-59). -/
def mExportDefaultDecl (kw : String) : RuleStep := fun _ l =>
  match dropLit (("export default " ++ kw).data) l with
  | none => none
  | some r1 =>
    let (ws, r2) := splitWhile isJsSpace r1
    if ws.isEmpty then none
    else
      let (name, r3) := splitWhile isJsWord r2
      if name.isEmpty then none
      else some ((("export default " ++ kw).data) ++ ws ++ name, ((kw ++ " ").data) ++ name, r3)

/-- `/export default\s+/g → ""` (source line 60). -/
def mExportDefault : RuleStep := fun _ l =>
  match dropLit ("export default".data) l with
  | none => none
  | some r1 =>
    let (ws, r2) := splitWhile isJsSpace r1
    if ws.isEmpty then none
    else some (("export default".data) ++ ws, [], r2)

/-- The alternation `(const|function|class|let|var)` followed by a
literal space, tried in the regex's order. -/
def tryKeywords : List String → List Char → Option (String × List Char)
  | [], _ => none
  | kw :: rest, l =>
    match dropLit ((kw ++ " ").data) l with
    | some r => some (kw, r)
    | none => tryKeywords rest l

/-- `/export (const|function|class|let|var) /g → "$1 "`
(source line 61). -/
def mExportKeyword : RuleStep := fun _ l =>
  match dropLit ("export ".data) l with
  | none => none
  | some r1 =>
    match tryKeywords ["const", "function", "class", "let", "var"] r1 with
    | none => none
    | some (kw, r2) =>
      some (("export ".data) ++ ((kw ++ " ").data), ((kw ++ " ").data), r2)

/-- `/export \x7b[^\x7d]+\x7d;?/g → ""` (source line 62, the
`export { ... }` list). -/
def mExportList : RuleStep := fun _ l =>
  match dropLit ("export \x7b".data) l with
  | none => none
  | some r1 =>
    let (body, r2) := splitWhile (fun c => !(c == '\x7d')) r1
    if body.isEmpty then none
    else
      match r2 with
      | '\x7d' :: ';' :: r3 => some (("export \x7b".data) ++ body ++ ('\x7d' :: [';']), [], r3)
      | '\x7d' :: r3 => some (("export \x7b".data) ++ body ++ ['\x7d'], [], r3)
      | _ => none

/-- Word-boundary `\b` before the first matched character `c`: the
`\w`-ness of the previous original character differs from `c`'s
(at the start of input, `c` itself must be a `\w` character). -/
def boundaryOk (prev : Option Char) (c : Char) : Bool :=
  match prev with
  | none => isJsWord c
  | some p => !(isJsWord p == isJsWord c)

/-- `/\b([A-Za-z_$][\w$]*)<[^>]+>\s*\(/g → "$1("` (source line 64):
drop a generic type-argument list before a call. -/
def mGeneric : RuleStep := fun prev l =>
  match l with
  | [] => none
  | c :: cs =>
    if isIdentStart c && boundaryOk prev c then
      let (restIdent, r1) := splitWhile isIdentChar cs
      match r1 with
      | '<' :: r2 =>
        let (targ, r3) := splitWhile (fun c => !(c == '>')) r2
        if targ.isEmpty then none
        else
          match r3 with
          | '>' :: r4 =>
            let (ws, r5) := splitWhile isJsSpace r4
            match r5 with
            | '(' :: r6 =>
              some (c :: restIdent ++ '<' :: targ ++ '>' :: ws ++ ['('],
                    c :: restIdent ++ ['('], r6)
            | _ => none
          | _ => none
      | _ => none
    else none

/-- `/interface\s+\w+\s*\x7b[^\x7d]*\x7d/g → ""` (source line 65). -/
def mInterface : RuleStep := fun _ l =>
  match dropLit ("interface".data) l with
  | none => none
  | some r1 =>
    let (ws1, r2) := splitWhile isJsSpace r1
    if ws1.isEmpty then none
    else
      let (name, r3) := splitWhile isJsWord r2
      if name.isEmpty then none
      else
        let (ws2, r4) := splitWhile isJsSpace r3
        match r4 with
        | '\x7b' :: r5 =>
          let (body, r6) := splitWhile (fun c => !(c == '\x7d')) r5
          match r6 with
          | '\x7d' :: r7 =>
            some (("interface".data) ++ ws1 ++ name ++ ws2 ++ '\x7b' :: body ++ ['\x7d'], [], r7)
          | _ => none
        | _ => none

/-- `/type\s+\w+\s*=[^;]+;/g → ""` (source line 66). -/
def mTypeAlias : RuleStep := fun _ l =>
  match dropLit ("type".data) l with
  | none => none
  | some r1 =>
    let (ws1, r2) := splitWhile isJsSpace r1
    if ws1.isEmpty then none
    else
      let (name, r3) := splitWhile isJsWord r2
      if name.isEmpty then none
      else
        let (ws2, r4) := splitWhile isJsSpace r3
        match r4 with
        | '=' :: r5 =>
          let (body, r6) := splitWhile (fun c => !(c == ';')) r5
          if body.isEmpty then none
          else
            match r6 with
            | ';' :: r7 =>
              some (("type".data) ++ ws1 ++ name ++ ws2 ++ '=' :: body ++ [';'], [], r7)
            | _ => none
        | _ => none

/-- The terminators `[=,;)]` of the trailing-annotation pattern. -/
def isAnnTerm (c : Char) : Bool :=
  c == '=' || c == ',' || c == ';' || c == ')'

/-- The `(\s*\|\s*\w+)*\s*[=,;)]` tail of the annotation pattern:
returns the consumed union-arm characters, the terminator and the
rest.  Fails exactly when the JavaScript regex would fail (the
character classes are disjoint from `|` and the terminators, so the
greedy match needs no backtracking). -/
def annTail : Nat → List Char → Option (List Char × Char × List Char)
  | 0, _ => none
  | fuel + 1, l =>
    let (ws, r1) := splitWhile isJsSpace l
    match r1 with
    | [] => none
    | c :: r2 =>
      if c = '|' then
        let (ws2, r3) := splitWhile isJsSpace r2
        let (w, r4) := splitWhile isJsWord r3
        if w.isEmpty then none
        else
          match annTail fuel r4 with
          | none => none
          | some (mid, t, rest) => some (ws ++ c :: ws2 ++ w ++ mid, t, rest)
      else if isAnnTerm c then some (ws, c, r2) else none

/-- The optional `(\[\])?` array marker of the annotation pattern:
split off a leading `[]` when present. -/
def bracketSplit (l : List Char) : List Char × List Char :=
  match l with
  | '[' :: ']' :: r => (('[' :: [']']), r)
  | _ => (([] : List Char), l)

/-- `/:\s*\w+(\[\])?(\s*\|\s*\w+)*\s*[=,;)]/g` with replacement
`match.replace(/:\s*[^=,;)]+/, "")` (source line 67): a matched
trailing type annotation is reduced to its terminator character. -/
def mAnnot : RuleStep := fun _ l =>
  match l with
  | [] => none
  | c0 :: r1 =>
    if c0 = ':' then
      let (ws1, r2) := splitWhile isJsSpace r1
      let (w, r3) := splitWhile isJsWord r2
      if w.isEmpty then none
      else
        let (brack, r4) := bracketSplit r3
        match annTail r4.length r4 with
        | none => none
        | some (mid, t, rest) => some (c0 :: ws1 ++ w ++ brack ++ mid ++ [t], [t], rest)
    else none

/-- A quote character, `'` or `"`. -/
def isQuoteChar (c : Char) : Bool :=
  c == '"' || c.toNat == 39

/-- The directive names of the prologue pattern, tried in the
alternation's order. -/
def tryDirectives : List String → List Char → Option (String × List Char)
  | [], _ => none
  | d :: rest, l =>
    match dropLit (d.data) l with
    | some r => some (d, r)
    | none => tryDirectives rest l

/-- `/[quote]use\s+(?:client|server)[quote];?\s*/g → ""`
(source line 69): remove `use client` / `use server` directives. -/
def mDirective : RuleStep := fun _ l =>
  match l with
  | q :: r1 =>
    if isQuoteChar q then
      match dropLit ("use".data) r1 with
      | none => none
      | some r2 =>
        let (ws, r3) := splitWhile isJsSpace r2
        if ws.isEmpty then none
        else
          match tryDirectives ["client", "server"] r3 with
          | none => none
          | some (d, r4) =>
            match r4 with
            | q2 :: r5 =>
              if isQuoteChar q2 then
                let (semi, r6) :=
                  match r5 with
                  | ';' :: r6 => (([';'] : List Char), r6)
                  | _ => (([] : List Char), r5)
                let (ws2, r7) := splitWhile isJsSpace r6
                some (q :: ("use".data) ++ ws ++ (d.data) ++ (q2 :: semi) ++ ws2, [], r7)
              else none
            | [] => none
    else none
  | [] => none

/-- `stripTS` (source lines 53-69): the twelve replace passes in
source order. -/
def stripTS (code : String) : String :=
  let s1 := applyRule mImport code
  let s2 := applyRule (mExportDefaultDecl "function") s1
  let s3 := applyRule (mExportDefaultDecl "class") s2
  let s4 := applyRule (mExportDefaultDecl "const") s3
  let s5 := applyRule mExportDefault s4
  let s6 := applyRule mExportKeyword s5
  let s7 := applyRule mExportList s6
  let s8 := applyRule mGeneric s7
  let s9 := applyRule mInterface s8
  let s10 := applyRule mTypeAlias s9
  let s11 := applyRule mAnnot s10
  applyRule mDirective s11

/-- The export-removal rules (source lines 57-62) followed by the
trailing-type-annotation rule (source line 67), in source order: the
sub-pipeline the idempotence property quantifies over. -/
def stripExportAnnotRules (code : String) : String :=
  let s2 := applyRule (mExportDefaultDecl "function") code
  let s3 := applyRule (mExportDefaultDecl "class") s2
  let s4 := applyRule (mExportDefaultDecl "const") s3
  let s5 := applyRule mExportDefault s4
  let s6 := applyRule mExportKeyword s5
  let s7 := applyRule mExportList s6
  applyRule mAnnot s7

/-- Brace balance of a string: occurrences of `\x7b` minus
occurrences of `\x7d`. -/
def braceDelta (s : String) : Int :=
  (List.count ('\x7b') s.data : Int) - (List.count ('\x7d') s.data : Int)

/-- Parenthesis balance of a string. -/
def parenDelta (s : String) : Int :=
  (List.count ('(') s.data : Int) - (List.count (')') s.data : Int)

/-! ### The preview document builder (source lines 146-347) -/

/-- JavaScript `String.prototype.includes`: some contiguous run of
`l` equals `pat`. -/
def listContains (pat : List Char) : List Char → Bool
  | [] => pat.isEmpty
  | c :: cs => pat.isPrefixOf (c :: cs) || listContains pat cs

/-- CSS/style classification (source lines 151-157):
`f.type === "style"`, or the path contains `globals.css` or
`styles.css`, or it ends with `.css`. -/
def isStyleFile (f : ProjectFile) : Bool :=
  f.type == "style" ||
    listContains (("globals.css").data) f.path.data ||
    listContains (("styles.css").data) f.path.data ||
    ((".css").data).isSuffixOf f.path.data

/-- Script classification (source line 161): the regex
`/\.(t|j)sx?$/` tests exactly for one of the four suffixes
`.ts`, `.js`, `.tsx`, `.jsx`. -/
def isScriptPath (p : String) : Bool :=
  ((".ts").data).isSuffixOf p.data ||
    ((".js").data).isSuffixOf p.data ||
    ((".tsx").data).isSuffixOf p.data ||
    ((".jsx").data).isSuffixOf p.data

/-- The "no components found" diagnostic document (source lines
164-169); `available` is the comma-joined file path list. -/
def noComponentsDoc (available : String) : String :=
  "<!DOCTYPE html><html><head><meta charset=\x27utf-8\x27/></head><body>
          <div style=\"padding:24px;font-family:system-ui;text-align:center;\">
            <h2>No React Components Found</h2>
            <p>Upload files with .js, .jsx, .ts, or .tsx extensions to see a preview.</p>
            <p>Available files: " ++ available ++ "</p>
          </div></body></html>"

/-- The concatenated user scripts (source lines 173-181): each script
file is prefixed with a provenance comment and run through `stripTS`.
The per-file `try/catch` of the source wraps `stripTS`, which is a
total string rewrite, so its error arm is unreachable and the success
arm is the whole behaviour. -/
def userJsOf (jsFiles : List ProjectFile) : String :=
  String.intercalate "\n\n" (jsFiles.map (fun f => "// File: " ++ f.path ++ "\n" ++ stripTS f.content))

/-- The `reactSetup` scaffold string (source lines 184-195). -/
def reactSetup : String :=
  "
        const \x7b 
          useState, useEffect, useRef, useMemo, useCallback, useReducer, 
          useContext, createContext, Fragment, Component, PureComponent,
          forwardRef, memo, lazy, Suspense
        \x7d = React;
        
        // Common utilities that might be used
        const cn = (...classes) => classes.filter(Boolean).join(\x27 \x27);
        const clsx = cn;
        const classNames = cn;
      "

/-- The main preview document up to the `$\x7bcss\x7d` splice point
(source lines 197-218). -/
def previewDocHead : String :=
  "<!DOCTYPE html><html><head>
        <meta charset=\x27utf-8\x27/>
        <meta name=\x27viewport\x27 content=\x27width=device-width,initial-scale=1\x27/>
        <title>React App Preview</title>
        <script crossorigin src=\x27https://unpkg.com/react@18/umd/react.development.js\x27></script>
        <script crossorigin src=\x27https://unpkg.com/react-dom@18/umd/react-dom.development.js\x27></script>
        <script src=\x27https://unpkg.com/@babel/standalone/babel.min.js\x27></script>
        <script src=\x27https://cdn.tailwindcss.com\x27></script>
        <style>
          body \x7b margin: 0; font-family: system-ui, -apple-system, sans-serif; \x7d
          .error-display \x7b 
            background: #fee; border: 1px solid #fcc; color: #c33; 
            padding: 16px; margin: 16px; border-radius: 8px; 
            white-space: pre-wrap; font-family: monospace; font-size: 14px;
            max-height: 400px; overflow-y: auto;
          \x7d
          .component-list \x7b
            background: #f8f9fa; border: 1px solid #dee2e6; 
            padding: 12px; margin: 8px 0; border-radius: 6px;
            font-family: monospace; font-size: 12px;
          \x7d
          "

/-- The main preview document between the `css` splice and the
`reactSetup` splice (source lines 218-242): error-capture handlers
and the opening of the in-document compiler script. -/
def previewDocMid1 : String :=
  "
        </style>
      </head><body>
        <div id=\x27root\x27></div>
        <script>
          window.onerror = (msg, url, line, col, error) => \x7b
            const errorDiv = document.createElement(\x27div\x27);
            errorDiv.className = \x27error-display\x27;
            errorDiv.textContent = \x27Runtime Error:\\n\x27 + (error && error.stack ? error.stack : msg);
            document.getElementById(\x27root\x27).innerHTML = \x27\x27;
            document.getElementById(\x27root\x27).appendChild(errorDiv);
            return true;
          \x7d;
          
          window.addEventListener(\x27unhandledrejection\x27, (event) => \x7b
            const errorDiv = document.createElement(\x27div\x27);
            errorDiv.className = \x27error-display\x27;
            errorDiv.textContent = \x27Promise Rejection:\\n\x27 + (event.reason && event.reason.stack ? event.reason.stack : event.reason);
            document.getElementById(\x27root\x27).innerHTML = \x27\x27;
            document.getElementById(\x27root\x27).appendChild(errorDiv);
          \x7d);
        </script>
        <script type=\x27text/babel\x27 data-presets=\x27typescript,react\x27>
          try \x7b
            "

/-- The splice gap between `reactSetup` and `userJs`
(source lines 242-243). -/
def previewDocMid2 : String :=
  "
            "

/-- The remainder of the main preview document after the `userJs`
splice (source lines 244-342): root-component discovery, the
diagnostic panel, the error boundary, the mount call and the
outer compilation catch. -/
def previewDocTail : String :=
  "
            
            // Auto-detect root component from common patterns
            const findRootComponent = () => \x7b
              // Common component names in order of preference
              const candidates = [
                \x27App\x27, \x27HomePage\x27, \x27Home\x27, \x27Page\x27, \x27Main\x27, \x27Root\x27, \x27Index\x27,
                \x27Dashboard\x27, \x27Layout\x27, \x27Component\x27, \x27MyComponent\x27
              ];
              
              for (const name of candidates) \x7b
                if (typeof window[name] === \x27function\x27) \x7b
                  return window[name];
                \x7d
              \x7d
              
              // Look for any function that starts with uppercase (likely a component)
              const componentNames = Object.getOwnPropertyNames(window).filter(name => 
                typeof window[name] === \x27function\x27 && 
                name[0] === name[0].toUpperCase() &&
                name !== \x27Component\x27 && name !== \x27PureComponent\x27 // Exclude React base classes
              );
              
              if (componentNames.length > 0) \x7b
                return window[componentNames[0]];
              \x7d
              
              return null;
            \x7d;
            
            const RootComponent = findRootComponent();
            
            if (!RootComponent) \x7b
              // Show available components for debugging
              const allFunctions = Object.getOwnPropertyNames(window).filter(name => 
                typeof window[name] === \x27function\x27
              );
              
              ReactDOM.createRoot(document.getElementById(\x27root\x27)).render(
                <div style=\x7b\x7bfontFamily:\x27system-ui\x27,padding:24,textAlign:\x27center\x27\x7d\x7d>
                  <h2>No Root Component Detected</h2>
                  <p>Could not find a React component to render.</p>
                  <details style=\x7b\x7bmarginTop:16,textAlign:\x27left\x27\x7d\x7d>
                    <summary>Looking for components named:</summary>
                    <div className=\"component-list\">
                      App, HomePage, Home, Page, Main, Root, Index, Dashboard, Layout, Component, MyComponent
                    </div>
                  </details>
                  <details style=\x7b\x7bmarginTop:8,textAlign:\x27left\x27\x7d\x7d>
                    <summary>Available functions (\x7ballFunctions.length\x7d):</summary>
                    <div className=\"component-list\">
                      \x7ballFunctions.join(\x27, \x27) || \x27None found\x27\x7d
                    </div>
                  </details>
                  <div style=\x7b\x7bmarginTop:16,fontSize:14,color:\x27#666\x27\x7d\x7d>
                    Make sure your component is exported as a function and follows React naming conventions.
                  </div>
                </div>
              );
            \x7d else \x7b
              class ErrorBoundary extends React.Component \x7b
                constructor(props) \x7b
                  super(props);
                  this.state = \x7b hasError: false, error: null \x7d;
                \x7d
                
                static getDerivedStateFromError(error) \x7b
                  return \x7b hasError: true, error \x7d;
                \x7d
                
                componentDidCatch(error, errorInfo) \x7b
                  console.error(\x27React Error Boundary:\x27, error, errorInfo);
                \x7d
                
                render() \x7b
                  if (this.state.hasError) \x7b
                    return (
                      <div className=\"error-display\">
                        <strong>React Component Error:</strong>\\n
                        \x7bthis.state.error && this.state.error.stack ? this.state.error.stack : this.state.error\x7d
                        \\n\\n<strong>Component:</strong> \x7bRootComponent.name || \x27Unknown\x27\x7d
                      </div>
                    );
                  \x7d
                  return this.props.children;
                \x7d
              \x7d
              
              ReactDOM.createRoot(document.getElementById(\x27root\x27)).render(
                <ErrorBoundary>
                  <RootComponent />
                </ErrorBoundary>
              );
            \x7d
          \x7d catch (error) \x7b
            document.getElementById(\x27root\x27).innerHTML = 
              \x27<div class=\"error-display\"><strong>Compilation Error:</strong>\\n\x27 + (error.stack || error) + \x27</div>\x27;
          \x7d
        </script>
      </body></html>"

/-- The assembled main preview document (source lines 197-342). -/
def previewDoc (css userJs : String) : String :=
  previewDocHead ++ css ++ previewDocMid1 ++ reactSetup ++ previewDocMid2 ++ userJs ++ previewDocTail

/-- The fallback document of the builder's outer `catch`
(source line 345). -/
def fallbackDoc (err : String) : String :=
  "<!DOCTYPE html><html><body><div class=\"error-display\">Preview Build Error: " ++ err ++
    "</div></body></html>"

/-- The body of `buildPreview`'s `try` block (source lines 149-342):
classify files, bundle CSS, either return the diagnostic document or
assemble the full preview document.  Every step is a total string
computation, so the error arm of the `Except` (a thrown exception)
never occurs; it is kept to model the outer `catch` boundary. -/
def buildPreviewCore (proj : Project) : Except String String :=
  let cssFiles := proj.files.filter isStyleFile
  let css := String.intercalate "\n" (cssFiles.map (fun f => f.content))
  let jsFiles := proj.files.filter (fun f => isScriptPath f.path)
  if jsFiles.length == 0 then
    .ok (noComponentsDoc (String.intercalate ", " (proj.files.map (fun f => f.path))))
  else
    .ok (previewDoc css (userJsOf jsFiles))

/-- `buildPreview` (source lines 146-347): empty string without a
project; otherwise the `try` body, with any exception converted to
the fallback document by the outer `catch`. -/
def buildPreview (proj : Option Project) : String :=
  match proj with
  | none => ""
  | some p =>
    match buildPreviewCore p with
    | .ok doc => doc
    | .error err => fallbackDoc err

/-! ### Root-component discovery (the `findRootComponent` script,
source lines 246-271), modelled over the sandbox's global
environment: `isFn name` states that `typeof window[name] ===
'function'`, and `props` is `Object.getOwnPropertyNames(window)` in
enumeration order.  Discovery returns the selected global's name. -/

/-- The fixed candidate list, in order of preference
(source lines 248-251). -/
def candidateNames : List String :=
  ["App", "HomePage", "Home", "Page", "Main", "Root", "Index",
   "Dashboard", "Layout", "Component", "MyComponent"]

/-- `name[0] === name[0].toUpperCase()` (global property names are
never empty; the empty case is unreachable and chosen true). -/
def startsUpper (s : String) : Bool :=
  match s.data with
  | [] => true
  | c :: _ => c.toUpper == c

/-- The uppercase-named fallback filter (source lines 260-264). -/
def isComponentCandidate (isFn : String → Bool) (name : String) : Bool :=
  isFn name && startsUpper name && !(name == "Component") && !(name == "PureComponent")

/-- `findRootComponent` (source lines 246-271): first candidate bound
to a callable, else the first uppercase-named callable global (minus
the two framework base classes), else none. -/
def findRootComponent (isFn : String → Bool) (props : List String) : Option String :=
  match candidateNames.find? isFn with
  | some name => some name
  | none =>
    match props.filter (isComponentCandidate isFn) with
    | [] => none
    | name :: _ => some name

/-! ### Concrete sample values used by the witness theorems -/

/-- The flat envelope around a data value. -/
def flatEnv (d : Json) : Json :=
  Json.obj [("type", Json.str "data"), ("data", d)]

/-- The wrapped envelope around a data value. -/
def spanEnv (d : Json) : Json :=
  Json.obj [("type", Json.str "data"), ("data", Json.obj [("output", Json.obj [("data", d)])])]

/-- The canonical one-file project payload of the spec. -/
def okProjJson : Json :=
  Json.obj [("files", Json.arr [Json.obj
    [("path", Json.str "App.tsx"), ("content", Json.str "x"), ("type", Json.str "component")]])]

/-- The project position `{"files":[]}` of the end-to-end rejection
probe. -/
def emptyFilesData : Json :=
  Json.obj [("files", Json.arr [])]

/-- The end-to-end rejection probe `{"type":"data","data":{"files":[]}}`. -/
def emptyFilesMsg : Json :=
  flatEnv emptyFilesData

/-- The initial `ConnectionStatus` (source lines 100-106). -/
def initialStatus : ConnectionStatus :=
  { listening := true, messagesReceived := 0, lastMessageTime := none
    validMessages := 0, rejectedMessages := 0 }

/-- The initial session state. -/
def initialState : SessionState :=
  { proj := none, rej := [], banner := false, previewError := none, status := initialStatus }

/-- A concrete rejection record. -/
def sampleRejected : Rejected :=
  { id := "1", time := "t", origin := "o", msg := Json.null, issues := [], summary := "s" }

/-- A concrete global environment binding `App` and `HomePage` to
callables. -/
def sampleIsFn : String → Bool :=
  fun s => s == "App" || s == "HomePage"

/-- A concrete project with no script-like file. -/
def cssOnlyProject : Project :=
  { files := [{ path := "styles.css", content := "body", type := "style" }]
    description := none, instructions := none }

/-- The normalized `Project` carried by `okProjJson`. -/
def okProject : Project :=
  { files := [{ path := "App.tsx", content := "x", type := "component" }]
    description := none, instructions := none }

/-- A project position whose `files` is an empty sequence but which
also embeds a complete valid project under `output.data`. -/
def wrappedAndEmptyData : Json :=
  Json.obj [("files", Json.arr []), ("output", Json.obj [("data", okProjJson)])]

/-- The flat envelope around `wrappedAndEmptyData`: a payload whose
`data.files` is an empty sequence, which the union nevertheless
accepts through its wrapped arm. -/
def wrappedAndEmptyMsg : Json :=
  flatEnv wrappedAndEmptyData

/-- A parse outcome is well-formed when its failure forms carry at
least one issue; every schema of this program produces only
well-formed outcomes. -/
def ZOut.Good {α : Type} : ZOut α → Prop
  | .valid _ => True
  | .dirty _ issues => issues ≠ []
  | .invalid issues => issues ≠ []

/-- A parse outcome that is not fully valid (so `safeParse` reports
failure). -/
def ZOut.NotValid {α : Type} (r : ZOut α) : Prop :=
  ∀ a, r ≠ .valid a

/-- The defective project payloads of the error-handling property:
the project position is missing `files`, or its `files` is an empty
sequence, or some entry of `files` lacks `path`, `content` or
`type`. -/
def badProj (d : Json) : Prop :=
  getField d "files" = none ∨
    getField d "files" = some (Json.arr []) ∨
    (∃ fs f, getField d "files" = some (Json.arr fs) ∧ f ∈ fs ∧
      (getField f "path" = none ∨ getField f "content" = none ∨ getField f "type" = none))

/-- The characters the trailing-annotation rule is allowed to delete:
the colon, whitespace, word characters, square brackets and the union
pipe.  Braces and parentheses are not among them. -/
def annDeletable (c : Char) : Bool :=
  isJsSpace c || isJsWord c || c == ':' || c == '[' || c == ']' || c == '|'

/-! ### Theorems -/

theorem foldl_pushRejected (rs : List Rejected) :
    List.foldl (fun log r => pushRejected r log) [] rs = rs.reverse.take 10 := by
  induction rs using List.reverseRecOn with
  | nil => rfl
  | append_singleton l a ih =>
    rw [List.foldl_concat, ih]
    show a :: (l.reverse.take 10).take 9 = (l ++ [a]).reverse.take 10
    rw [List.take_take, List.reverse_append]
    simp [List.take_succ_cons]

/-- C10: `getErrorSummary` is total over every issue list: the empty
list yields the fixed string `"Unknown validation error"`, and for a
non-empty list the result depends only on the first issue. -/
theorem errorSummaryTotal :
    getErrorSummary [] = "Unknown validation error" ∧
    ∀ (i : ZIssue) (rest rest2 : List ZIssue),
      getErrorSummary (i :: rest) = getErrorSummary (i :: rest2) := by
  refine ⟨rfl, ?_⟩
  intro i rest rest2
  cases i <;> rfl

/-- C8: processing `{"type":"data","data":{"files":[]}}` produces a
validation failure whose issue list is exactly the `too_small` issue
(minimum 1), whose summary mentions the minimum item count, and the
listener leaves the current project unchanged while logging the
rejection. -/
theorem emptyFilesRejection (msgId msgTime origin : String) (st : SessionState) :
    safeParse emptyFilesMsg =
      .error [ZIssue.tooSmall 1 "array" "At least one file is required"] ∧
    ZIssue.code (ZIssue.tooSmall 1 "array" "At least one file is required") = "too_small" ∧
    getErrorSummary [ZIssue.tooSmall 1 "array" "At least one file is required"] =
      "Array too small: minimum 1 items required" ∧
    (listener msgId msgTime origin emptyFilesMsg st).proj = st.proj ∧
    (listener msgId msgTime origin emptyFilesMsg st).rej =
      { id := msgId, time := msgTime, origin := origin, msg := emptyFilesMsg
        issues := [ZIssue.tooSmall 1 "array" "At least one file is required"]
        summary := "Array too small: minimum 1 items required" } :: st.rej.take 9 := by
  have hsp : safeParse emptyFilesMsg =
      .error [ZIssue.tooSmall 1 "array" "At least one file is required"] := rfl
  have hsum : getErrorSummary [ZIssue.tooSmall 1 "array" "At least one file is required"] =
      "Array too small: minimum 1 items required" := rfl
  refine ⟨hsp, rfl, hsum, ?_, ?_⟩ <;>
    simp [listener, hsp, hsum, pushRejected]

/-- C4: the rejection log is the reversed arrival sequence truncated
to 10 entries (most recent first, never more than 10), and a push
onto a full log of 10 drops the oldest entry. -/
theorem rejectionLogBounded :
    (∀ rs : List Rejected,
      List.foldl (fun log r => pushRejected r log) [] rs = rs.reverse.take 10 ∧
      (List.foldl (fun log r => pushRejected r log) [] rs).length ≤ 10) ∧
    (∀ (r : Rejected) (log : List Rejected),
      log.length = 10 → pushRejected r log = r :: log.dropLast) := by
  refine ⟨fun rs => ⟨foldl_pushRejected rs, ?_⟩, ?_⟩
  · rw [foldl_pushRejected rs]
    simp [List.length_take]
  · intro r log hlen
    unfold pushRejected
    rw [List.dropLast_eq_take, hlen]

theorem rejectionLogBounded_witness :
    (List.replicate 10 sampleRejected).length = 10 ∧
    pushRejected sampleRejected (List.replicate 10 sampleRejected) =
      sampleRejected :: (List.replicate 10 sampleRejected).dropLast :=
  ⟨rfl, rejectionLogBounded.2 sampleRejected (List.replicate 10 sampleRejected) rfl⟩

/-- C9: every handled message increments `messagesReceived` by
exactly one and exactly one of `validMessages`/`rejectedMessages` by
exactly one, so `messagesReceived = validMessages + rejectedMessages`
is preserved by the listener. -/
theorem statusCountersConsistent (msgId msgTime origin : String) (data : Json)
    (st : SessionState)
    (h : st.status.messagesReceived = st.status.validMessages + st.status.rejectedMessages) :
    (listener msgId msgTime origin data st).status.messagesReceived =
      st.status.messagesReceived + 1 ∧
    ((listener msgId msgTime origin data st).status.validMessages =
        st.status.validMessages + 1 ∧
      (listener msgId msgTime origin data st).status.rejectedMessages =
        st.status.rejectedMessages ∨
      (listener msgId msgTime origin data st).status.validMessages =
        st.status.validMessages ∧
      (listener msgId msgTime origin data st).status.rejectedMessages =
        st.status.rejectedMessages + 1) ∧
    (listener msgId msgTime origin data st).status.messagesReceived =
      (listener msgId msgTime origin data st).status.validMessages +
        (listener msgId msgTime origin data st).status.rejectedMessages := by
  cases hsp : safeParse data with
  | error issues => simp [listener, hsp]; omega
  | ok parsed => simp [listener, hsp]; omega

theorem statusCountersConsistent_witness :
    initialState.status.messagesReceived =
      initialState.status.validMessages + initialState.status.rejectedMessages ∧
    ((listener "i" "t" "o" emptyFilesMsg initialState).status.messagesReceived =
      initialState.status.messagesReceived + 1 ∧
    ((listener "i" "t" "o" emptyFilesMsg initialState).status.validMessages =
        initialState.status.validMessages + 1 ∧
      (listener "i" "t" "o" emptyFilesMsg initialState).status.rejectedMessages =
        initialState.status.rejectedMessages ∨
      (listener "i" "t" "o" emptyFilesMsg initialState).status.validMessages =
        initialState.status.validMessages ∧
      (listener "i" "t" "o" emptyFilesMsg initialState).status.rejectedMessages =
        initialState.status.rejectedMessages + 1) ∧
    (listener "i" "t" "o" emptyFilesMsg initialState).status.messagesReceived =
      (listener "i" "t" "o" emptyFilesMsg initialState).status.validMessages +
        (listener "i" "t" "o" emptyFilesMsg initialState).status.rejectedMessages) :=
  ⟨rfl, statusCountersConsistent "i" "t" "o" emptyFilesMsg initialState rfl⟩

/-- C5: when no file path has a script extension, the builder returns
the "no components found" diagnostic document listing exactly the
submitted paths, comma-joined in file order. -/
theorem noScriptDiagnostic (p : Project)
    (h : p.files.filter (fun f => isScriptPath f.path) = []) :
    buildPreview (some p) =
      noComponentsDoc (String.intercalate ", " (p.files.map (fun f => f.path))) := by
  simp [buildPreview, buildPreviewCore, h]

theorem noScriptDiagnostic_witness :
    cssOnlyProject.files.filter (fun f => isScriptPath f.path) = [] ∧
    buildPreview (some cssOnlyProject) =
      noComponentsDoc (String.intercalate ", " (cssOnlyProject.files.map (fun f => f.path))) :=
  ⟨rfl, noScriptDiagnostic cssOnlyProject rfl⟩

theorem find?_first_split {α : Type} (p : α → Bool) :
    ∀ (l : List α) (n : α), n ∈ l → p n = true →
      ∃ m pre post, l.find? p = some m ∧ p m = true ∧
        l = pre ++ m :: post ∧ ∀ x ∈ pre, p x = false := by
  intro l
  induction l with
  | nil => intro n h; cases h
  | cons a t ih =>
    intro n hmem hp
    by_cases ha : p a = true
    · exact ⟨a, [], t, List.find?_cons_of_pos t ha, ha, rfl, by simp⟩
    · have hnt : n ∈ t := by
        rcases List.mem_cons.mp hmem with rfl | hnt
        · exact absurd hp ha
        · exact hnt
      rcases ih n hnt hp with ⟨m, pre, post, h1, h2, h3, h4⟩
      refine ⟨m, a :: pre, post, ?_, h2, ?_, ?_⟩
      · rw [List.find?_cons_of_neg t ha]; exact h1
      · rw [List.cons_append, h3]
      · intro x hx
        rcases List.mem_cons.mp hx with rfl | hxp
        · exact Bool.not_eq_true _ ▸ Bool.of_not_eq_true ha
        · exact h4 x hxp

/-- C7: root-component discovery is priority-order deterministic:
whenever some candidate name is bound to a callable, discovery
returns a callable candidate that appears in the list before every
other bound candidate; in particular, with both `App` and `HomePage`
bound, it selects `App`. -/
theorem rootDiscoveryPriority :
    (∀ (isFn : String → Bool) (props : List String) (n : String),
      n ∈ candidateNames → isFn n = true →
      ∃ m pre post, findRootComponent isFn props = some m ∧ isFn m = true ∧
        candidateNames = pre ++ m :: post ∧ ∀ x ∈ pre, isFn x = false) ∧
    (∀ (isFn : String → Bool) (props : List String),
      isFn ("App") = true → isFn ("HomePage") = true →
      findRootComponent isFn props = some ("App")) := by
  constructor
  · intro isFn props n hmem hp
    rcases find?_first_split isFn candidateNames n hmem hp with ⟨m, pre, post, h1, h2, h3, h4⟩
    exact ⟨m, pre, post, by simp [findRootComponent, h1], h2, h3, h4⟩
  · intro isFn props hApp _
    have hfind : candidateNames.find? isFn = some ("App") := by
      show List.find? isFn (("App") :: _) = some ("App")
      exact List.find?_cons_of_pos _ hApp
    simp [findRootComponent, hfind]

theorem rootDiscoveryPriority_witness :
    (("HomePage") ∈ candidateNames ∧ sampleIsFn ("HomePage") = true) ∧
    (∃ m pre post, findRootComponent sampleIsFn [] = some m ∧ sampleIsFn m = true ∧
      candidateNames = pre ++ m :: post ∧ ∀ x ∈ pre, sampleIsFn x = false) :=
  ⟨⟨by decide, by decide⟩,
    rootDiscoveryPriority.1 sampleIsFn [] ("HomePage") (by decide) (by decide)⟩

/-- C1: a payload whose project position validates yields success for
both the flat and the wrapped envelope, and the normalized `Project`
extracted from either arm is the same. -/
theorem schemaShapeInvariance (d : Json) (p : Project)
    (hp : project (some d) = .valid p) :
    schema (flatEnv d) = .valid (.flat p) ∧
    schema (spanEnv d) = .valid (.wrapped p) ∧
    extractProject (.flat p) = extractProject (.wrapped p) := by
  have hflat : flat (flatEnv d) = (zPair (.valid ()) (project (some d))).map Prod.snd := rfl
  have hspan : span (spanEnv d) = (zPair (.valid ()) (project (some d))).map Prod.snd := rfl
  have hflat2 : flat (spanEnv d) = .invalid [.invalidType "array" "undefined"] := rfl
  rw [hp] at hflat hspan
  simp [zPair, ZOut.map] at hflat hspan
  refine ⟨?_, ?_, rfl⟩
  · simp [schema, hflat]
  · simp [schema, hflat2, hspan]

theorem schemaShapeInvariance_witness :
    project (some okProjJson) = .valid okProject ∧
    (schema (flatEnv okProjJson) = .valid (.flat okProject) ∧
      schema (spanEnv okProjJson) = .valid (.wrapped okProject) ∧
      extractProject (.flat okProject) = extractProject (.wrapped okProject)) :=
  ⟨rfl, schemaShapeInvariance okProjJson okProject rfl⟩

set_option maxRecDepth 40000 in
/-- C3: for every project the builder's body completes with a
document, `buildPreview` returns exactly that document (never an
exception escaping the boundary), and the result is an HTML document
(it starts with the doctype header). -/
theorem buildPreviewTotal (p : Project) :
    ∃ doc, buildPreviewCore p = .ok doc ∧ buildPreview (some p) = doc ∧
      List.take 15 doc.data = ("<!DOCTYPE html>").data := by
  have hNo : ∀ s : String, List.take 15 (noComponentsDoc s).data = ("<!DOCTYPE html>").data := by
    intro s
    show List.take 15 ((_ ++ s ++ _ : String)).data = _
    simp only [String.data_append, List.append_assoc]
    rw [List.take_append_of_le_length (by decide)]
    decide
  have hMain : ∀ css userJs : String,
      List.take 15 (previewDoc css userJs).data = ("<!DOCTYPE html>").data := by
    intro css userJs
    show List.take 15
      ((previewDocHead ++ css ++ previewDocMid1 ++ reactSetup ++ previewDocMid2 ++ userJs ++
        previewDocTail : String)).data = _
    simp only [String.data_append, List.append_assoc]
    rw [List.take_append_of_le_length (by decide)]
    decide
  unfold buildPreview buildPreviewCore
  by_cases hc : (p.files.filter (fun f => isScriptPath f.path)).length = 0
  · exact ⟨noComponentsDoc (String.intercalate ", " (p.files.map (fun f => f.path))),
      by simp [hc], by simp [hc], hNo _⟩
  · refine ⟨previewDoc
      (String.intercalate "\n" ((p.files.filter isStyleFile).map (fun f => f.content)))
      (userJsOf (p.files.filter (fun f => isScriptPath f.path))), by simp [hc], by simp [hc],
      hMain _ _⟩


theorem bracketSplit_spec (l : List Char) :
    (bracketSplit l).1 ++ (bracketSplit l).2 = l ∧
    ∀ c ∈ (bracketSplit l).1, annDeletable c = true := by
  unfold bracketSplit
  split
  · refine ⟨rfl, ?_⟩
    intro c hc
    simp only [List.mem_cons, List.not_mem_nil, or_false] at hc
    rcases hc with rfl | rfl <;> decide
  · exact ⟨rfl, by intro c hc; simp at hc⟩

theorem annTail_spec :
    ∀ (fuel : Nat) (l mid : List Char) (t : Char) (rest : List Char),
      annTail fuel l = some (mid, t, rest) →
      l = mid ++ t :: rest ∧ ∀ c ∈ mid, annDeletable c = true := by
  intro fuel
  induction fuel with
  | zero => intro l mid t rest h; simp [annTail] at h
  | succ fuel ih =>
    intro l mid t rest h
    simp only [annTail, splitWhile] at h
    cases hr1 : l.dropWhile isJsSpace with
    | nil => rw [hr1] at h; simp at h
    | cons c r2 =>
      rw [hr1] at h
      have hsplit : l = l.takeWhile isJsSpace ++ c :: r2 := by
        conv_lhs => rw [← List.takeWhile_append_dropWhile isJsSpace l]
        rw [hr1]
      generalize hws : l.takeWhile isJsSpace = ws at h hsplit
      have hwsmem : ∀ x ∈ ws, isJsSpace x = true := by
        intro x hx; rw [← hws] at hx; exact List.mem_takeWhile_imp hx
      simp only [] at h
      split at h
      · -- the union-pipe arm
        rename_i hc
        subst hc
        generalize hws2 : r2.takeWhile isJsSpace = ws2 at h
        generalize hr3 : r2.dropWhile isJsSpace = r3 at h
        generalize hw : r3.takeWhile isJsWord = w at h
        generalize hr4 : r3.dropWhile isJsWord = r4 at h
        split at h
        · simp at h
        · rcases hann : annTail fuel r4 with _ | ⟨mid2, t2, rest2⟩
          · rw [hann] at h; simp at h
          · rw [hann] at h
            simp only [Option.some.injEq, Prod.mk.injEq] at h
            obtain ⟨hmid, ht, hrest⟩ := h
            subst hmid ht hrest
            obtain ⟨heq, hmem⟩ := ih _ _ _ _ hann
            constructor
            · rw [hsplit]
              have h2 : r2 = ws2 ++ (w ++ r4) := by
                calc r2 = r2.takeWhile isJsSpace ++ r2.dropWhile isJsSpace :=
                      (List.takeWhile_append_dropWhile _ _).symm
                  _ = ws2 ++ r3 := by rw [hws2, hr3]
                  _ = ws2 ++ (r3.takeWhile isJsWord ++ r3.dropWhile isJsWord) := by
                      rw [List.takeWhile_append_dropWhile]
                  _ = ws2 ++ (w ++ r4) := by rw [hw, hr4]
              rw [h2, heq]
              simp
            · intro x hx
              rcases List.mem_append.mp hx with hx1 | hxmid
              · rcases List.mem_append.mp hx1 with hx2 | hxw
                · rcases List.mem_append.mp hx2 with hxws | hxp
                  · simp [annDeletable, hwsmem x hxws]
                  · rcases List.mem_cons.mp hxp with rfl | hxws2
                    · decide
                    · have : isJsSpace x = true := by
                        rw [← hws2] at hxws2; exact List.mem_takeWhile_imp hxws2
                      simp [annDeletable, this]
                · have : isJsWord x = true := by
                    rw [← hw] at hxw; exact List.mem_takeWhile_imp hxw
                  simp [annDeletable, this]
              · exact hmem x hxmid
      · -- the terminator arm
        split at h
        · rename_i hterm
          simp only [Option.some.injEq, Prod.mk.injEq] at h
          obtain ⟨hmid, ht, hrest⟩ := h
          subst hmid ht hrest
          exact ⟨hsplit, fun x hx => by simp [annDeletable, hwsmem x hx]⟩
        · simp at h

theorem count_zero_of_deletable (m : List Char)
    (hall : ∀ x ∈ m, annDeletable x = true) :
    ∀ c : Char, annDeletable c = false → List.count c m = 0 := by
  intro c hc
  rw [List.count_eq_zero]
  intro hmem
  rw [hall c hmem] at hc
  cases hc

theorem mAnnot_spec (prev : Option Char) (l m r rest : List Char)
    (h : mAnnot prev l = some (m, r, rest)) :
    l = m ++ rest ∧
      ∀ c : Char, annDeletable c = false → List.count c m = List.count c r := by
  cases l with
  | nil => simp [mAnnot] at h
  | cons c0 l1 =>
    simp only [mAnnot, splitWhile] at h
    split at h
    case isTrue hc0 =>
      subst hc0
      split at h
      · simp at h
      · rename_i hwne
        rcases hbr : bracketSplit ((l1.dropWhile isJsSpace).dropWhile isJsWord)
            with ⟨brack, r4⟩
        rw [hbr] at h
        simp only [] at h
        rcases hann : annTail r4.length r4 with _ | ⟨mid, t, rest2⟩
        · rw [hann] at h; simp at h
        · rw [hann] at h
          simp only [Option.some.injEq, Prod.mk.injEq] at h
          obtain ⟨hm, hr, hrest⟩ := h
          subst hm hr hrest
          obtain ⟨hateq, hatmem⟩ := annTail_spec _ _ _ _ _ hann
          have hbrfull := bracketSplit_spec ((l1.dropWhile isJsSpace).dropWhile isJsWord)
          rw [hbr] at hbrfull
          obtain ⟨hbreq, hbrmem⟩ := hbrfull
          have hws1 : ∀ x ∈ l1.takeWhile isJsSpace, annDeletable x = true := by
            intro x hx; simp [annDeletable, List.mem_takeWhile_imp hx]
          have hwmem : ∀ x ∈ (l1.dropWhile isJsSpace).takeWhile isJsWord,
              annDeletable x = true := by
            intro x hx; simp [annDeletable, List.mem_takeWhile_imp hx]
          constructor
          · have hl1 : l1 = l1.takeWhile isJsSpace ++
                ((l1.dropWhile isJsSpace).takeWhile isJsWord ++ (brack ++ r4)) := by
              conv_lhs => rw [← List.takeWhile_append_dropWhile isJsSpace l1]
              congr 1
              conv_lhs =>
                rw [← List.takeWhile_append_dropWhile isJsWord (l1.dropWhile isJsSpace)]
              congr 1
              exact hbreq.symm
            conv_lhs => rw [hl1, hateq]
            simp
          · intro c hcdel
            have hne : (':' == c) = false := by
              cases hq : (':' == c)
              · rfl
              · have : c = ':' := (beq_iff_eq.mp hq).symm
                subst this
                cases hcdel
            have z1 := count_zero_of_deletable _ hws1 c hcdel
            have z2 := count_zero_of_deletable _ hwmem c hcdel
            have z3 := count_zero_of_deletable _ hbrmem c hcdel
            have z4 := count_zero_of_deletable _ hatmem c hcdel
            simp [List.count_append, List.count_cons, hne, z1, z2, z3, z4]
    case isFalse => simp at h

theorem runRule_count (step : RuleStep)
    (hstep : ∀ prev l m r rest, step prev l = some (m, r, rest) →
      l = m ++ rest ∧
        ∀ c : Char, annDeletable c = false → List.count c m = List.count c r) :
    ∀ (fuel : Nat) (prev : Option Char) (l : List Char) (c : Char),
      annDeletable c = false →
      List.count c (runRule step fuel prev l) = List.count c l := by
  intro fuel
  induction fuel with
  | zero => intro prev l c hc; rfl
  | succ fuel ih =>
    intro prev l c hc
    cases l with
    | nil => rfl
    | cons c0 cs =>
      cases hs : step prev (c0 :: cs) with
      | none =>
        simp only [runRule, hs]
        rw [List.count_cons, List.count_cons, ih (some c0) cs c hc]
      | some x =>
        rcases x with ⟨m, r, rest⟩
        obtain ⟨hsplit, hcount⟩ := hstep prev (c0 :: cs) m r rest hs
        simp only [runRule, hs]
        rw [List.count_append, ih m.getLast? rest c hc, hsplit,
          List.count_append, hcount c hc]

/-- C6 amended: the claim fails as stated; what holds is that (a) any
input one application of the export-removal and type-annotation rules
leaves unchanged is unchanged by re-running them, and (b) the
type-annotation rule by itself never changes the number of braces or
parentheses (it deletes only annotation characters and keeps the
terminator). -/
theorem stripIdempotentOnStripped (s : String) :
    (stripExportAnnotRules s = s →
      stripExportAnnotRules (stripExportAnnotRules s) = stripExportAnnotRules s) ∧
    (List.count ('\x7b') (applyRule mAnnot s).data = List.count ('\x7b') s.data ∧
      List.count ('\x7d') (applyRule mAnnot s).data = List.count ('\x7d') s.data ∧
      List.count ('(') (applyRule mAnnot s).data = List.count ('(') s.data ∧
      List.count (')') (applyRule mAnnot s).data = List.count (')') s.data) := by
  have hcount : ∀ c : Char, annDeletable c = false →
      List.count c (applyRule mAnnot s).data = List.count c s.data := by
    intro c hc
    show List.count c (runRule mAnnot s.data.length none s.data) = _
    exact runRule_count mAnnot (fun prev l m r rest h => mAnnot_spec prev l m r rest h)
      s.data.length none s.data c hc
  refine ⟨fun h => by rw [h]; exact h,
    hcount _ (by decide), hcount _ (by decide), hcount _ (by decide), hcount _ (by decide)⟩

theorem stripIdempotentOnStripped_witness :
    stripExportAnnotRules ("x= 1") = ("x= 1") ∧
    ((stripExportAnnotRules (stripExportAnnotRules ("x= 1")) =
        stripExportAnnotRules ("x= 1")) ∧
      (List.count ('\x7b') (applyRule mAnnot ("x= 1")).data =
          List.count ('\x7b') ("x= 1").data ∧
        List.count ('\x7d') (applyRule mAnnot ("x= 1")).data =
          List.count ('\x7d') ("x= 1").data ∧
        List.count ('(') (applyRule mAnnot ("x= 1")).data =
          List.count ('(') ("x= 1").data ∧
        List.count (')') (applyRule mAnnot ("x= 1")).data =
          List.count (')') ("x= 1").data)) :=
  ⟨by decide, (stripIdempotentOnStripped ("x= 1")).1 (by decide),
    (stripIdempotentOnStripped ("x= 1")).2⟩

/-- C6 counterexample: the export/type-annotation rules are not
idempotent on their own output (the input `"x: y: z = 1"` strips to
`"x: y= 1"`, and a second application strips further to `"x= 1"`),
and full stripping can worsen brace balance (the import rule deletes
the lone closing brace inside `"f()\x7b import a \x7d;"`, turning a
balanced input into an unbalanced output). -/
theorem stripClaimCounterexample :
    stripExportAnnotRules (stripExportAnnotRules ("x: y: z = 1")) ≠
      stripExportAnnotRules ("x: y: z = 1") ∧
    braceDelta ("f()\x7b import a \x7d;") = 0 ∧
    braceDelta (stripTS ("f()\x7b import a \x7d;")) = 1 := by
  refine ⟨by decide, by decide, by decide⟩

theorem good_parseString (v : Option Json) : (parseString v).Good := by
  cases v with
  | none => simp [parseString, ZOut.Good]
  | some j => cases j <;> simp [parseString, ZOut.Good]

theorem good_parseStringMin1 (msg : String) (v : Option Json) :
    (parseStringMin1 msg v).Good := by
  cases hp : parseString v with
  | valid s =>
    by_cases hl : s.length < 1 <;> simp [parseStringMin1, hp, hl, ZOut.Good]
  | dirty a is =>
    have := good_parseString v
    rw [hp] at this
    simp only [parseStringMin1, hp]
    exact this
  | invalid is =>
    have := good_parseString v
    rw [hp] at this
    simp only [parseStringMin1, hp]
    exact this

theorem good_map {α β : Type} (f : α → β) (r : ZOut α) (h : r.Good) :
    (r.map f).Good := by
  cases r with
  | valid a => simp [ZOut.map, ZOut.Good]
  | dirty a is => exact h
  | invalid is => exact h

theorem good_zPair {α β : Type} (a : ZOut α) (b : ZOut β)
    (ha : a.Good) (hb : b.Good) : (zPair a b).Good := by
  cases a <;> cases b <;>
    simp_all [zPair, ZOut.Good, ZOut.issues, List.append_eq_nil]

theorem good_parseOptString (v : Option Json) : (parseOptString v).Good := by
  cases v with
  | none => simp [parseOptString, ZOut.Good]
  | some j => exact good_map _ _ (good_parseString (some j))

theorem good_file (j : Json) : (file j).Good := by
  cases j with
  | obj fields =>
    exact good_map _ _ (good_zPair _ _ (good_parseStringMin1 _ _)
      (good_zPair _ _ (good_parseString _) (good_parseStringMin1 _ _)))
  | null => simp [file, ZOut.Good]
  | bool b => simp [file, ZOut.Good]
  | num n => simp [file, ZOut.Good]
  | str s => simp [file, ZOut.Good]
  | arr elems => simp [file, ZOut.Good]

theorem seqVals_none_flatten {α : Type} :
    ∀ (rs : List (ZOut α)), (∀ r ∈ rs, r.Good) → seqVals rs = none →
      (rs.map ZOut.issues).flatten ≠ [] := by
  intro rs
  induction rs with
  | nil => intro _ h; simp [seqVals] at h
  | cons a t ih =>
    intro hg hs
    cases a with
    | valid x =>
      have ht : seqVals t = none := by
        by_contra hne
        rcases Option.ne_none_iff_exists'.mp hne with ⟨vs, hvs⟩
        rw [seqVals, hvs] at hs
        simp at hs
      have := ih (fun r hr => hg r (List.mem_cons_of_mem _ hr)) ht
      exact this
    | dirty x is =>
      have ht : seqVals t = none := by
        by_contra hne
        rcases Option.ne_none_iff_exists'.mp hne with ⟨vs, hvs⟩
        rw [seqVals, hvs] at hs
        simp at hs
      have := ih (fun r hr => hg r (List.mem_cons_of_mem _ hr)) ht
      intro h
      exact this (List.append_eq_nil.mp h).2
    | invalid is =>
      have hne : is ≠ [] := hg _ (List.mem_cons_self _ _)
      intro h
      exact hne (List.append_eq_nil.mp h).1

theorem good_parseFiles (v : Option Json) : (parseFiles v).Good := by
  cases v with
  | none => simp [parseFiles, ZOut.Good]
  | some j =>
    cases j with
    | arr elems =>
      have hgoods : ∀ r ∈ elems.map file, r.Good := by
        intro r hr
        rcases List.mem_map.mp hr with ⟨e, _, rfl⟩
        exact good_file e
      cases hseq : seqVals (elems.map file) with
      | some vs =>
        simp only [parseFiles, hseq]
        split
        · simp [ZOut.Good]
        · rename_i his
          exact his
      | none =>
        simp only [parseFiles, hseq]
        have hfl := seqVals_none_flatten (elems.map file) hgoods hseq
        intro h
        exact hfl (List.append_eq_nil.mp h).2
    | null => simp [parseFiles, ZOut.Good]
    | bool b => simp [parseFiles, ZOut.Good]
    | num n => simp [parseFiles, ZOut.Good]
    | str s => simp [parseFiles, ZOut.Good]
    | obj fields => simp [parseFiles, ZOut.Good]

theorem good_project (v : Option Json) : (project v).Good := by
  cases v with
  | none => simp [project, ZOut.Good]
  | some j =>
    cases j with
    | obj fields =>
      exact good_map _ _ (good_zPair _ _ (good_parseFiles _)
        (good_zPair _ _ (good_parseOptString _) (good_parseOptString _)))
    | null => simp [project, ZOut.Good]
    | bool b => simp [project, ZOut.Good]
    | num n => simp [project, ZOut.Good]
    | str s => simp [project, ZOut.Good]
    | arr elems => simp [project, ZOut.Good]

theorem good_parseLiteralData (v : Option Json) : (parseLiteralData v).Good := by
  cases v with
  | none => simp [parseLiteralData, ZOut.Good]
  | some j =>
    cases j with
    | str s =>
      by_cases hs : s = "data" <;> simp [parseLiteralData, hs, ZOut.Good]
    | null => simp [parseLiteralData, ZOut.Good]
    | bool b => simp [parseLiteralData, ZOut.Good]
    | num n => simp [parseLiteralData, ZOut.Good]
    | arr elems => simp [parseLiteralData, ZOut.Good]
    | obj fields => simp [parseLiteralData, ZOut.Good]

theorem good_flat (j : Json) : (flat j).Good := by
  cases j with
  | obj fields =>
    exact good_map _ _ (good_zPair _ _ (good_parseLiteralData _) (good_project _))
  | null => simp [flat, ZOut.Good]
  | bool b => simp [flat, ZOut.Good]
  | num n => simp [flat, ZOut.Good]
  | str s => simp [flat, ZOut.Good]
  | arr elems => simp [flat, ZOut.Good]

theorem good_spanOutput (v : Option Json) : (spanOutput v).Good := by
  cases v with
  | none => simp [spanOutput, ZOut.Good]
  | some j =>
    cases j with
    | obj fields => exact good_project _
    | null => simp [spanOutput, ZOut.Good]
    | bool b => simp [spanOutput, ZOut.Good]
    | num n => simp [spanOutput, ZOut.Good]
    | str s => simp [spanOutput, ZOut.Good]
    | arr elems => simp [spanOutput, ZOut.Good]

theorem good_spanData (v : Option Json) : (spanData v).Good := by
  cases v with
  | none => simp [spanData, ZOut.Good]
  | some j =>
    cases j with
    | obj fields => exact good_spanOutput _
    | null => simp [spanData, ZOut.Good]
    | bool b => simp [spanData, ZOut.Good]
    | num n => simp [spanData, ZOut.Good]
    | str s => simp [spanData, ZOut.Good]
    | arr elems => simp [spanData, ZOut.Good]

theorem good_span (j : Json) : (span j).Good := by
  cases j with
  | obj fields =>
    exact good_map _ _ (good_zPair _ _ (good_parseLiteralData _) (good_spanData _))
  | null => simp [span, ZOut.Good]
  | bool b => simp [span, ZOut.Good]
  | num n => simp [span, ZOut.Good]
  | str s => simp [span, ZOut.Good]
  | arr elems => simp [span, ZOut.Good]

theorem safeParse_error_of_notValid (j : Json)
    (hf : (flat j).NotValid) (hs : (span j).NotValid) :
    ∃ issues, safeParse j = .error issues ∧ issues ≠ [] := by
  unfold safeParse schema
  cases hfc : flat j with
  | valid p => exact absurd hfc (hf p)
  | dirty p is =>
    have hgood := good_flat j
    rw [hfc] at hgood
    cases hsc : span j with
    | valid q => exact absurd hsc (hs q)
    | dirty q is2 => exact ⟨is, rfl, hgood⟩
    | invalid is2 => exact ⟨is, rfl, hgood⟩
  | invalid is =>
    cases hsc : span j with
    | valid q => exact absurd hsc (hs q)
    | dirty q is2 =>
      have hgood := good_span j
      rw [hsc] at hgood
      exact ⟨is2, rfl, hgood⟩
    | invalid is2 => exact ⟨[.invalidUnion [is, is2]], rfl, by simp⟩

theorem zPair_invalid_left {α β : Type} (is : List ZIssue) (b : ZOut β) :
    zPair (.invalid is : ZOut α) b = .invalid (is ++ b.issues) := by
  cases b <;> rfl

theorem zPair_invalid_right {α β : Type} (a : ZOut α) (is : List ZIssue) :
    zPair a (.invalid is : ZOut β) = .invalid (a.issues ++ is) := by
  cases a <;> rfl

theorem notValid_map_pair {α β γ : Type} (x : α) (b : ZOut β) (f : α × β → γ)
    (hb : b.NotValid) : ((zPair (.valid x) b).map f).NotValid := by
  cases b with
  | valid y => exact absurd rfl (hb y)
  | dirty y is => intro a; simp [zPair, ZOut.map]
  | invalid is => intro a; simp [zPair, ZOut.map]

theorem notValid_pair_left_map {α β γ : Type} (a : ZOut α) (b : ZOut β) (f : α × β → γ)
    (ha : a.NotValid) : ((zPair a b).map f).NotValid := by
  cases a with
  | valid x => exact absurd rfl (ha x)
  | dirty x is => cases b <;> (intro z; simp [zPair, ZOut.map])
  | invalid is => cases b <;> (intro z; simp [zPair, ZOut.map])

theorem isInvalid_map {α β : Type} (f : α → β) (r : ZOut α)
    (h : ∃ is, r = .invalid is) : ∃ is, r.map f = .invalid is := by
  rcases h with ⟨is, rfl⟩
  exact ⟨is, rfl⟩

theorem isInvalid_zPair_left {α β : Type} (a : ZOut α) (b : ZOut β)
    (h : ∃ is, a = .invalid is) : ∃ is, zPair a b = .invalid is := by
  rcases h with ⟨is, rfl⟩
  exact ⟨_, zPair_invalid_left is b⟩

theorem isInvalid_zPair_right {α β : Type} (a : ZOut α) (b : ZOut β)
    (h : ∃ is, b = .invalid is) : ∃ is, zPair a b = .invalid is := by
  rcases h with ⟨is, rfl⟩
  exact ⟨_, zPair_invalid_right a is⟩

theorem file_invalid_of_missing (f : Json)
    (h : getField f "path" = none ∨ getField f "content" = none ∨
      getField f "type" = none) :
    ∃ is, file f = .invalid is := by
  cases f with
  | obj fields =>
    show ∃ is,
      (zPair (parseStringMin1 "File path cannot be empty" (getField (Json.obj fields) "path"))
        (zPair (parseString (getField (Json.obj fields) "content"))
          (parseStringMin1 "File type cannot be empty" (getField (Json.obj fields) "type")))).map
        (fun x => (⟨x.1, x.2.1, x.2.2⟩ : ProjectFile)) = ZOut.invalid is
    apply isInvalid_map
    rcases h with hp | hc | ht
    · apply isInvalid_zPair_left
      exact ⟨[.invalidType "string" "undefined"], by rw [hp]; rfl⟩
    · apply isInvalid_zPair_right
      apply isInvalid_zPair_left
      exact ⟨[.invalidType "string" "undefined"], by rw [hc]; rfl⟩
    · apply isInvalid_zPair_right
      apply isInvalid_zPair_right
      exact ⟨[.invalidType "string" "undefined"], by rw [ht]; rfl⟩
  | null => exact ⟨_, rfl⟩
  | bool b => exact ⟨_, rfl⟩
  | num n => exact ⟨_, rfl⟩
  | str s => exact ⟨_, rfl⟩
  | arr elems => exact ⟨_, rfl⟩

theorem seqVals_none_of_invalid {α : Type} :
    ∀ (rs : List (ZOut α)) (is : List ZIssue), (ZOut.invalid is) ∈ rs →
      seqVals rs = none := by
  intro rs
  induction rs with
  | nil => intro is h; cases h
  | cons a t ih =>
    intro is hmem
    rcases List.mem_cons.mp hmem with heq | hmem2
    · rw [← heq]; rfl
    · cases a with
      | valid x => simp [seqVals, ih is hmem2]
      | dirty x i2 => simp [seqVals, ih is hmem2]
      | invalid i2 => rfl

theorem parseFiles_notValid (d : Json) (hbad : badProj d) :
    (parseFiles (getField d "files")).NotValid := by
  rcases hbad with hnone | hempty | ⟨fs, f, hfs, hmem, hmiss⟩
  · rw [hnone]
    intro a
    simp [parseFiles]
  · rw [hempty]
    intro a
    simp [parseFiles, seqVals]
  · rw [hfs]
    rcases file_invalid_of_missing f hmiss with ⟨is, hinv⟩
    have hseq : seqVals (fs.map file) = none :=
      seqVals_none_of_invalid (fs.map file) is
        (hinv ▸ List.mem_map_of_mem file hmem)
    intro a
    simp [parseFiles, hseq]

theorem project_notValid (d : Json) (hbad : badProj d) :
    (project (some d)).NotValid := by
  cases d with
  | obj fields =>
    exact notValid_pair_left_map _ _ _ (parseFiles_notValid (Json.obj fields) hbad)
  | null => intro a; simp [project]
  | bool b => intro a; simp [project]
  | num n => intro a; simp [project]
  | str s => intro a; simp [project]
  | arr elems => intro a; simp [project]

theorem spanData_noOutput (d : Json) (hout : getField d "output" = none) :
    ∃ is, spanData (some d) = .invalid is := by
  cases d with
  | obj fields =>
    show ∃ is, spanOutput (getField (Json.obj fields) "output") = _
    rw [hout]
    exact ⟨_, rfl⟩
  | null => exact ⟨_, rfl⟩
  | bool b => exact ⟨_, rfl⟩
  | num n => exact ⟨_, rfl⟩
  | str s => exact ⟨_, rfl⟩
  | arr elems => exact ⟨_, rfl⟩

theorem listener_proj_of_error (msgId msgTime origin : String) (data : Json)
    (st : SessionState) (issues : List ZIssue)
    (h : safeParse data = .error issues) :
    (listener msgId msgTime origin data st).proj = st.proj := by
  simp [listener, h]

/-- C2 counterexample: the payload
`{"type":"data","data":{"files":[],"output":{"data":P}}}` has `files`
as an empty sequence, yet validation succeeds through the union's
wrapped arm and the listener replaces the current project with the
embedded one — refuting the claim's universal as stated. -/
theorem invalidPayloadCounterexample :
    getField wrappedAndEmptyMsg "data" = some wrappedAndEmptyData ∧
    getField wrappedAndEmptyData "files" = some (Json.arr []) ∧
    safeParse wrappedAndEmptyMsg = .ok (.wrapped okProject) ∧
    (listener "i" "t" "o" wrappedAndEmptyMsg initialState).proj = some okProject ∧
    initialState.proj = none := by
  refine ⟨rfl, rfl, rfl, ?_, rfl⟩
  simp [listener, show safeParse wrappedAndEmptyMsg = .ok (.wrapped okProject) from rfl,
    extractProject]

/-- C2 amended: for a payload whose project position is missing
`files`, has an empty `files` sequence, or contains a file missing
`path`/`content`/`type`: the wrapped envelope of it is always
rejected with at least one structured issue and the current project
is unchanged; the flat envelope of it is likewise rejected with the
project unchanged whenever its data's `output` position does not
itself hold a complete valid wrapped project; and in the remaining
case — the data also embeds a valid project under `output.data` — the
union accepts the flat payload through the wrapped arm and replaces
the current project with the embedded one.  The hypothesis of the
flat conjunct is exactly the union's acceptance boundary:
`spanData (some d)` not valid. -/
theorem invalidPayloadRejected (d : Json) (msgId msgTime origin : String)
    (st : SessionState) (hbad : badProj d) :
    (∃ issues, safeParse (spanEnv d) = .error issues ∧ issues ≠ [] ∧
      (listener msgId msgTime origin (spanEnv d) st).proj = st.proj) ∧
    ((∀ p, spanData (some d) ≠ .valid p) →
      ∃ issues, safeParse (flatEnv d) = .error issues ∧ issues ≠ [] ∧
        (listener msgId msgTime origin (flatEnv d) st).proj = st.proj) ∧
    (∀ p, spanData (some d) = .valid p →
      safeParse (flatEnv d) = .ok (.wrapped p) ∧
      (listener msgId msgTime origin (flatEnv d) st).proj = some p) := by
  have hproj : (project (some d)).NotValid := project_notValid d hbad
  have hflatFE : (flat (flatEnv d)).NotValid := by
    have he : flat (flatEnv d) =
        (zPair (.valid ()) (project (some d))).map Prod.snd := rfl
    rw [he]
    exact notValid_map_pair _ _ _ hproj
  have hspanFEeq : span (flatEnv d) =
      (zPair (.valid ()) (spanData (some d))).map Prod.snd := rfl
  refine ⟨?_, ?_, ?_⟩
  · have hf : (flat (spanEnv d)).NotValid := by
      have he : flat (spanEnv d) = .invalid [.invalidType "array" "undefined"] := rfl
      rw [he]
      intro a
      simp
    have hs : (span (spanEnv d)).NotValid := by
      have he : span (spanEnv d) =
          (zPair (.valid ()) (project (some d))).map Prod.snd := rfl
      rw [he]
      exact notValid_map_pair _ _ _ hproj
    rcases safeParse_error_of_notValid (spanEnv d) hf hs with ⟨is, h1, h2⟩
    exact ⟨is, h1, h2, listener_proj_of_error _ _ _ _ _ _ h1⟩
  · intro hns
    have hs : (span (flatEnv d)).NotValid := by
      rw [hspanFEeq]
      exact notValid_map_pair _ _ _ hns
    rcases safeParse_error_of_notValid (flatEnv d) hflatFE hs with ⟨is, h1, h2⟩
    exact ⟨is, h1, h2, listener_proj_of_error _ _ _ _ _ _ h1⟩
  · intro p hp2
    have hspanVal : span (flatEnv d) = .valid p := by
      rw [hspanFEeq, hp2]
      rfl
    have hok : safeParse (flatEnv d) = .ok (.wrapped p) := by
      cases hfc : flat (flatEnv d) with
      | valid q => exact absurd hfc (hflatFE q)
      | dirty q is => simp [safeParse, schema, hfc, hspanVal]
      | invalid is => simp [safeParse, schema, hfc, hspanVal]
    exact ⟨hok, by simp [listener, hok, extractProject]⟩

theorem invalidPayloadRejected_witness :
    badProj emptyFilesData ∧
    (∀ p : Project, spanData (some emptyFilesData) ≠ .valid p) ∧
    (∃ issues, safeParse (spanEnv emptyFilesData) = .error issues ∧ issues ≠ [] ∧
      (listener "i" "t" "o" (spanEnv emptyFilesData) initialState).proj =
        initialState.proj) ∧
    (∃ issues, safeParse (flatEnv emptyFilesData) = .error issues ∧ issues ≠ [] ∧
      (listener "i" "t" "o" (flatEnv emptyFilesData) initialState).proj =
        initialState.proj) := by
  have hbad : badProj emptyFilesData := Or.inr (Or.inl rfl)
  have hns : ∀ p : Project, spanData (some emptyFilesData) ≠ .valid p := by
    intro p h
    simp [show spanData (some emptyFilesData) =
      ZOut.invalid [ZIssue.invalidType "object" "undefined"] from rfl] at h
  exact ⟨hbad, hns,
    (invalidPayloadRejected emptyFilesData "i" "t" "o" initialState hbad).1,
    (invalidPayloadRejected emptyFilesData "i" "t" "o" initialState hbad).2.1 hns⟩
